import Mathlib

/-!
Shallow embedding of the otun-node-agent control-plane agent (Go) and proofs
about its quota monitor, config generator, local store, hybrid merge,
sync loop and process supervisor.

Go maps `map[string]V` are embedded as association lists `List (String × V)`
with overwrite-on-insert semantics; Go `int64` counters are embedded as `Int`
(byte counters in this program never approach the 2^63 wrap); `time.Time`
values are embedded as an abstract integer instant passed explicitly where the
source calls `time.Now()`.
-/

namespace OtunAgent

/-- Abstract instant (the source uses `time.Time`; comparisons only). -/
abbrev Time := Int

/-- Lookup in an association-list embedding of a Go map. -/
def lookupM {α : Type} (k : String) : List (String × α) → Option α
  | [] => none
  | (k2, v) :: rest => if k2 = k then some v else lookupM k rest

/-- Removal of a key, embedding Go `delete(m, k)`. -/
def eraseM {α : Type} (k : String) (l : List (String × α)) : List (String × α) :=
  l.filter (fun p => decide (p.1 ≠ k))

/-- Overwriting insert, embedding Go `m[k] = v` (map order is irrelevant). -/
def insertM {α : Type} (k : String) (v : α) (l : List (String × α)) : List (String × α) :=
  (k, v) :: eraseM k l

theorem lookupM_insertM_self {α : Type} (k : String) (v : α) (l : List (String × α)) :
    lookupM k (insertM k v l) = some v := by
  simp [insertM, lookupM]

theorem lookupM_filter_id {α : Type} (k : String) (f : String × α → Bool)
    (l : List (String × α)) (hf : ∀ p : String × α, p.1 = k → f p = true) :
    lookupM k (l.filter f) = lookupM k l := by
  induction l with
  | nil => rfl
  | cons p rest ih =>
    by_cases hp : p.1 = k
    · rw [List.filter_cons, if_pos (by simp [hf p hp])]
      simp [lookupM, hp, ih]
    · cases hfp : f p
      · rw [List.filter_cons, if_neg (by simp [hfp])]
        simp [lookupM, hp, ih]
      · rw [List.filter_cons, if_pos (by simp [hfp])]
        simp [lookupM, hp, ih]

theorem lookupM_filter_none {α : Type} (k : String) (f : String × α → Bool)
    (l : List (String × α)) (hf : ∀ p : String × α, p.1 = k → f p = false) :
    lookupM k (l.filter f) = none := by
  induction l with
  | nil => rfl
  | cons p rest ih =>
    by_cases hp : p.1 = k
    · rw [List.filter_cons, if_neg (by simp [hf p hp])]
      exact ih
    · cases hfp : f p
      · rw [List.filter_cons, if_neg (by simp [hfp])]
        exact ih
      · rw [List.filter_cons, if_pos (by simp [hfp])]
        simp [lookupM, hp, ih]

theorem lookupM_insertM_ne {α : Type} (k k2 : String) (v : α) (l : List (String × α))
    (h : k ≠ k2) : lookupM k2 (insertM k v l) = lookupM k2 l := by
  simp only [insertM, lookupM, if_neg h, eraseM]
  exact lookupM_filter_id k2 _ l (by
    intro p hp
    simp only [hp, decide_eq_true_eq]
    exact fun e => h e.symm)

theorem lookupM_eraseM_self {α : Type} (k : String) (l : List (String × α)) :
    lookupM k (eraseM k l) = none :=
  lookupM_filter_none k _ l (by intro p hp; simp [hp])

theorem lookupM_eq_none_iff {α : Type} (k : String) (l : List (String × α)) :
    lookupM k l = none ↔ ∀ p ∈ l, p.1 ≠ k := by
  induction l with
  | nil => simp [lookupM]
  | cons p rest ih =>
    cases p with
    | mk a b =>
      by_cases hp : a = k
      · simp [lookupM, hp]
      · simp [lookupM, hp, ih]

theorem eraseM_of_not_mem {α : Type} (k : String) (l : List (String × α))
    (h : lookupM k l = none) : eraseM k l = l := by
  rw [lookupM_eq_none_iff] at h
  rw [eraseM, List.filter_eq_self]
  intro p hp
  simpa using h p hp

theorem eraseM_insertM {α : Type} (k : String) (v : α) (l : List (String × α)) :
    eraseM k (insertM k v l) = eraseM k l := by
  simp only [insertM, eraseM, List.filter_cons]
  rw [if_neg (by simp)]
  rw [List.filter_filter]
  simp

/-! ## Quota monitor (src/internal/quota/monitor.go) -/

/-- `config.User` (src/internal/config/types.go). -/
structure User where
  UUID : String
  Protocols : List String
  SSPassword : String
  Enabled : Bool
  TrafficLimit : Int
  TrafficUsed : Int
  ExpireAt : Option Time
  DeviceID : String
deriving Repr, DecidableEq

/-- `quota.UserQuota` (src/internal/quota/monitor.go). -/
structure UserQuota where
  UUID : String
  TrafficLimit : Int
  TrafficUsed : Int
  SessionTraffic : Int
  ExpireAt : Option Time
  Enabled : Bool
deriving Repr, DecidableEq

/-- `quota.Monitor` working state: the `users map[string]*UserQuota` field. -/
structure Monitor where
  users : List (String × UserQuota)
deriving Repr, DecidableEq

/-- `time.Now().After(*user.ExpireAt)` guarded by the nil check, at instant `now`. -/
def isExpired (now : Time) : Option Time → Bool
  | some e => decide (now > e)
  | none => false

/-- The `UserQuota` record built for user `u` inside `Monitor.UpdateUsers`,
carrying the session-traffic counter over from the old map `old`. -/
def mkQuota (old : List (String × UserQuota)) (u : User) : UserQuota :=
  { UUID := u.UUID
    TrafficLimit := u.TrafficLimit
    TrafficUsed := u.TrafficUsed
    SessionTraffic :=
      match lookupM u.UUID old with
      | some existing => existing.SessionTraffic
      | none => 0
    ExpireAt := u.ExpireAt
    Enabled := u.Enabled }

/-- One loop iteration of `Monitor.UpdateUsers`: skip disabled users, carry the
surviving session-traffic counter from the old map `old`, write into `acc`. -/
def updateStep (old : List (String × UserQuota)) (acc : List (String × UserQuota))
    (u : User) : List (String × UserQuota) :=
  if u.Enabled then insertM u.UUID (mkQuota old u) acc else acc

/-- `Monitor.UpdateUsers`: rebuild the working map from the list, preserving
each surviving UUID's `SessionTraffic`. -/
def UpdateUsers (m : Monitor) (users : List User) : Monitor :=
  { users := users.foldl (updateStep m.users) [] }

/-- Outcome of one `Monitor.CheckUser` call: the new monitor state, the
returned boolean, and the eviction callback invocation (uuid, reason) if any. -/
structure CheckResult where
  monitor : Monitor
  allowed : Bool
  evicted : Option (String × String)
deriving Repr, DecidableEq

/-- `Monitor.CheckUser(uuid, additionalTraffic)` at instant `now`. -/
def CheckUser (m : Monitor) (now : Time) (uuid : String) (additionalTraffic : Int) :
    CheckResult :=
  match lookupM uuid m.users with
  | none => { monitor := m, allowed := false, evicted := none }
  | some u0 =>
    let user : UserQuota := { u0 with SessionTraffic := u0.SessionTraffic + additionalTraffic }
    let withUpdate : List (String × UserQuota) := insertM uuid user m.users
    if isExpired now user.ExpireAt then
      { monitor := { users := eraseM uuid withUpdate }
        allowed := false
        evicted := some (uuid, "expired") }
    else if user.TrafficLimit > 0 ∧ user.TrafficUsed + user.SessionTraffic ≥ user.TrafficLimit then
      { monitor := { users := eraseM uuid withUpdate }
        allowed := false
        evicted := some (uuid, "quota_exceeded") }
    else
      { monitor := { users := withUpdate }, allowed := true, evicted := none }

/-- `Monitor.CheckAllUsers` at instant `now`: the periodic expiry sweep.
Returns the new state and the eviction callback invocations. -/
def CheckAllUsers (m : Monitor) (now : Time) : Monitor × List (String × String) :=
  ({ users := m.users.filter (fun p => ! isExpired now p.2.ExpireAt) },
   (m.users.filter (fun p => isExpired now p.2.ExpireAt)).map
     (fun p => (p.1, "expired")))

/-! ## Config generator (src/unnamed/part_005, package config) -/

/-- `config.Generator` (only the fields `Generate` reads). -/
structure Generator where
  vlessPort : Int
  ssPort : Int
  privateKey : String
  shortIDs : List String
deriving Repr, DecidableEq

/-- One entry of the VLESS inbound user list. -/
structure VlessUser where
  uuid : String
  flow : String
deriving Repr, DecidableEq

/-- One entry of the Shadowsocks inbound user list. -/
structure SSUser where
  name : String
  password : String
deriving Repr, DecidableEq

/-- The user-dependent parts of the generated sing-box document: the two
per-protocol inbound user lists and the `experimental.v2ray_api.stats.users`
list. The rest of the document is constant scaffolding independent of the
user list (log block, outbounds, listener/TLS settings). -/
structure GenConfig where
  vlessUsers : List VlessUser
  ssUsers : List SSUser
  statsUsers : List String
  vlessPort : Int
  ssPort : Int
  realitySNI : String
deriving Repr, DecidableEq

/-- Accumulator of the `Generate` user loop. -/
structure GenAcc where
  vlessUsers : List VlessUser
  ssUsers : List SSUser
  statsUsers : List String
deriving Repr, DecidableEq

/-- Inner protocol loop of `Generate`: the `switch proto` appends. -/
def genProtoStep (u : User) (acc : GenAcc) (proto : String) : GenAcc :=
  if proto = "vless" then
    { acc with vlessUsers := acc.vlessUsers ++ [{ uuid := u.UUID, flow := "xtls-rprx-vision" }] }
  else if proto = "shadowsocks" then
    { acc with ssUsers := acc.ssUsers ++ [{ name := u.UUID, password := u.SSPassword }] }
  else acc

/-- Outer user loop of `Generate`: skip if the breaker is on or the user is
disabled; otherwise record the UUID in the stats list once and walk the
user's protocols. -/
def genUserStep (circuitBreakerEnabled : Bool) (acc : GenAcc) (u : User) : GenAcc :=
  if circuitBreakerEnabled || ! u.Enabled then acc
  else
    u.Protocols.foldl (genProtoStep u)
      { acc with statsUsers := acc.statsUsers ++ [u.UUID] }

/-- `Generator.Generate(users, realitySNI, circuitBreakerEnabled)`. -/
def Generate (g : Generator) (users : List User) (realitySNI : String)
    (circuitBreakerEnabled : Bool) : GenConfig :=
  let acc := users.foldl (genUserStep circuitBreakerEnabled) ⟨[], [], []⟩
  { vlessUsers := acc.vlessUsers
    ssUsers := acc.ssUsers
    statsUsers := acc.statsUsers
    vlessPort := g.vlessPort
    ssPort := g.ssPort
    realitySNI := realitySNI }

/-! ## Local store (src/unnamed/part_003, package local) -/

/-- `local.LocalUser`. -/
structure LocalUser where
  UUID : String
  Name : String
  Protocols : List String
  SSPassword : String
  Enabled : Bool
  TrafficLimit : Int
  TrafficUsed : Int
  ExpireAt : Option Time
  CreatedAt : Time
  UpdatedAt : Time
deriving Repr, DecidableEq

/-- `local.CircuitBreaker`. -/
structure CircuitBreaker where
  Enabled : Bool
  Reason : String
  EnabledAt : Time
  Message : String
deriving Repr, DecidableEq

/-- `local.Store` in-memory state: the `users map[string]*LocalUser` and the
circuit-breaker pointer (nil embedded as `none`). -/
structure Store where
  users : List (String × LocalUser)
  circuitBreaker : Option CircuitBreaker
deriving Repr, DecidableEq

/-- `Store.IsCircuitBreakerEnabled`. -/
def IsCircuitBreakerEnabled (s : Store) : Bool :=
  match s.circuitBreaker with
  | some cb => cb.Enabled
  | none => false

/-- `Store.ListUsers`: values of the user map. -/
def ListUsers (s : Store) : List LocalUser :=
  s.users.map Prod.snd

/-- Result of a store mutation: the store state after the call, the returned
value (`none` on error), and whether the `onChange` callback was invoked.
Disk persistence (`Store.save`) is modelled by the boolean `saveOk` input of
each mutation: the file write either succeeds or fails. -/
structure StoreMutation where
  store : Store
  result : Option LocalUser
  callbackInvoked : Bool
deriving Repr, DecidableEq

/-- `Store.CreateUser(req)`: `newUUID` and `ssPassword` stand for the values
produced by `uuid.New()` and `generatePassword(16)`, `now` for `time.Now()`,
and `saveOk` for the outcome of the `Store.save` disk write. On save failure
the freshly inserted entry is deleted again and no callback fires. -/
def CreateUser (s : Store) (name : String) (protocols : List String)
    (trafficLimit : Int) (expireDays : Int) (newUUID ssPassword : String)
    (now : Time) (saveOk : Bool) : StoreMutation :=
  let protocols2 := if protocols.isEmpty then ["vless", "shadowsocks"] else protocols
  let expireAt : Option Time := if expireDays > 0 then some (now + expireDays * 86400) else none
  let user : LocalUser :=
    { UUID := newUUID
      Name := name
      Protocols := protocols2
      SSPassword := ssPassword
      Enabled := true
      TrafficLimit := trafficLimit
      TrafficUsed := 0
      ExpireAt := expireAt
      CreatedAt := now
      UpdatedAt := now }
  let inserted : Store := { s with users := insertM newUUID user s.users }
  if saveOk then
    { store := inserted, result := some user, callbackInvoked := true }
  else
    { store := { inserted with users := eraseM newUUID inserted.users }
      result := none
      callbackInvoked := false }

/-- `Store.SetCircuitBreaker(enabled, reason, message)` at instant `now`;
`saveOk` models the `Store.save` disk write. The in-memory breaker field is
mutated before the save, so it keeps its new value even when the save fails;
the callback fires only on success. -/
def SetCircuitBreaker (s : Store) (enabled : Bool) (reason message : String)
    (now : Time) (saveOk : Bool) : Store × Bool :=
  let s2 : Store :=
    { s with circuitBreaker :=
        if enabled then
          some { Enabled := true, Reason := reason, EnabledAt := now, Message := message }
        else none }
  (s2, saveOk)

/-! ## Hybrid merge and sync cycles (src/cmd/agent/main.go) -/

/-- The `config.User` built from a `LocalUser` in `syncAndApplyHybrid` and
`regenerateConfig` (the unnamed `DeviceID` field stays at its zero value). -/
def localToConfigUser (lu : LocalUser) : User :=
  { UUID := lu.UUID
    Protocols := lu.Protocols
    SSPassword := lu.SSPassword
    Enabled := lu.Enabled
    TrafficLimit := lu.TrafficLimit
    TrafficUsed := lu.TrafficUsed
    ExpireAt := lu.ExpireAt
    DeviceID := "" }

/-- First merge loop of `syncAndApplyHybrid`: `userMap[u.UUID] = u`. -/
def insertRemoteStep (acc : List (String × User)) (u : User) : List (String × User) :=
  insertM u.UUID u acc

/-- Second merge loop of `syncAndApplyHybrid`: `userMap[lu.UUID] =` the
converted local user, overwriting a remote entry of the same UUID. -/
def insertLocalStep (acc : List (String × User)) (lu : LocalUser) : List (String × User) :=
  insertM lu.UUID (localToConfigUser lu) acc

/-- The merge step of `syncAndApplyHybrid`: remote users are inserted into the
map first, then local users overwrite entries with the same UUID. -/
def mergeHybrid (remote : List User) (localUsers : List LocalUser) :
    List (String × User) :=
  localUsers.foldl insertLocalStep (remote.foldl insertRemoteStep [])

/-- `config.UsersResponse`. -/
structure UsersResponse where
  Version : String
  Users : List User
  RealitySNI : String
deriving Repr, DecidableEq

/-- The agent state a sync cycle touches: the last-applied version token, the
quota monitor, the on-disk remote cache and the on-disk generated config. -/
structure AgentState where
  currentVersion : String
  monitor : Monitor
  cachedUsers : Option UsersResponse
  diskConfig : Option GenConfig
deriving Repr, DecidableEq

/-- Side-effect counts of one sync cycle: cache writes, config writes, and
reload attempts on the subprocess. -/
structure SyncTrace where
  cacheWrites : Nat
  configWrites : Nat
  reloads : Nat
deriving Repr, DecidableEq

/-- `Agent.syncAndApply` (remote mode) after a successful fetch of `resp`,
with the subprocess running iff `running` (standard single-generator path).
The version comparison short-circuits the whole cycle. -/
def syncAndApply (g : Generator) (a : AgentState) (resp : UsersResponse)
    (running : Bool) : AgentState × SyncTrace :=
  if resp.Version = a.currentVersion then
    (a, { cacheWrites := 0, configWrites := 0, reloads := 0 })
  else
    let monitor := UpdateUsers a.monitor resp.Users
    let cfg := Generate g resp.Users resp.RealitySNI false
    ({ currentVersion := resp.Version
       monitor := monitor
       cachedUsers := some resp
       diskConfig := some cfg },
     { cacheWrites := 1, configWrites := 1, reloads := if running then 1 else 0 })

/-- `Agent.syncAndApplyHybrid` (hybrid mode) after a successful fetch of
`resp`: merge remote and local users, update the monitor, write the cache,
regenerate and write the config, record the version, reload if running.
There is no version comparison on this path. -/
def syncAndApplyHybrid (g : Generator) (a : AgentState) (localStore : Store)
    (resp : UsersResponse) (running : Bool) : AgentState × SyncTrace :=
  let users := (mergeHybrid resp.Users (ListUsers localStore)).map Prod.snd
  let monitor := UpdateUsers a.monitor users
  let cb := IsCircuitBreakerEnabled localStore
  let cfg := Generate g users resp.RealitySNI cb
  ({ currentVersion := resp.Version
     monitor := monitor
     cachedUsers := some resp
     diskConfig := some cfg },
   { cacheWrites := 1, configWrites := 1, reloads := if running then 1 else 0 })

/-- `Agent.regenerateConfig` (local mode): the config written from the local
store alone, with the breaker flag read from the store and the fixed SNI
used on that path. -/
def regenerateConfig (g : Generator) (s : Store) : GenConfig :=
  Generate g ((ListUsers s).map localToConfigUser) "www.microsoft.com"
    (IsCircuitBreakerEnabled s)

/-! ## Process supervisor (src/internal/singbox/process.go) -/

/-- `maxRestartAttempts` constant. -/
def maxRestartAttempts : Nat := 5

/-- `singbox.Manager` supervision state (the fields the crash monitor and
`Reload` read and write). -/
structure MState where
  running : Bool
  restartCount : Nat
  lastRestartAt : Time
  stopRequested : Bool
deriving Repr, DecidableEq

/-- The crash-handling tail of `Manager.monitor`, entered when `cmd.Wait()`
returns at instant `t` in a trace without concurrent `Stop`/`Start` calls (so
the superseded-cmd check and the post-sleep `stopRequested` recheck see
nothing new, and the `startLocked` restart is taken to succeed). Returns the
new state and, when a restart is attempted, `some` of the backoff seconds the
monitor slept first. -/
def monitorStep (s : MState) (t : Time) : MState × Option Nat :=
  if s.stopRequested then ({ s with running := false }, none)
  else if ! s.running then ({ s with running := false }, none)
  else
    let count := if t - s.lastRestartAt < 10 then s.restartCount + 1 else 1
    let s2 : MState := { s with running := false, restartCount := count, lastRestartAt := t }
    if count > maxRestartAttempts then (s2, none)
    else
      let b0 := 2 ^ count
      let backoff := if b0 > 32 then 32 else b0
      ({ s2 with running := true, stopRequested := false }, some backoff)

/-- Run a sequence of crash instants through `monitorStep`, collecting the
backoff of every restart attempt made. -/
def runCrashes (s : MState) : List Time → MState × List Nat
  | [] => (s, [])
  | t :: ts =>
    let r := monitorStep s t
    let rest := runCrashes r.1 ts
    (rest.1,
     (match r.2 with
      | some b => [b]
      | none => []) ++ rest.2)

/-- `Manager.Reload` on the supervision state: fails when not running;
otherwise stop-then-start with the restart counter reset to zero in between
(stop and restart are taken to succeed, as in the source's happy path). -/
def Reload (s : MState) : Option MState :=
  if ! s.running then none
  else some { s with restartCount := 0, running := true, stopRequested := false }

/-- Environment `Manager.startLocked` consults: existence of the config file
and the binary, and whether the control port is observed occupied at each
one-second poll of `waitForPortAvailable`. -/
structure StartEnv where
  configExists : Bool
  binExists : Bool
  portOccupied : Nat → Bool

/-- The poll loop of `waitForPortAvailable`: at poll `i` the elapsed time is
`i` seconds; the loop times out once the elapsed time exceeds the 30-second
`maxPortWaitTime`, so polls 0..30 run (fuel 31). Returns the index of the
first poll that observed the port free, or `none` on timeout. -/
def waitLoop (portOccupied : Nat → Bool) : Nat → Nat → Option Nat
  | 0, _ => none
  | fuel + 1, i => if portOccupied i then waitLoop portOccupied fuel (i + 1) else some i

/-- `Manager.waitForPortAvailable`. -/
def waitForPortAvailable (portOccupied : Nat → Bool) : Option Nat :=
  waitLoop portOccupied 31 0

/-- Outcome of `Manager.startLocked`. -/
inductive StartResult where
  | errAlreadyRunning
  | errConfigMissing
  | errBinMissing
  | errPortTimeout
  /-- The subprocess was spawned right after the port was observed free at
  poll index `i`. -/
  | started (i : Nat)
deriving Repr, DecidableEq

/-- `Manager.startLocked`: the guard sequence before the spawn. -/
def startLocked (running : Bool) (env : StartEnv) : StartResult :=
  if running then .errAlreadyRunning
  else if ! env.configExists then .errConfigMissing
  else if ! env.binExists then .errBinMissing
  else
    match waitForPortAvailable env.portOccupied with
    | none => .errPortTimeout
    | some i => .started i

/-! ## Lemmas about CheckUser -/

theorem CheckUser_unknown (m : Monitor) (now : Time) (uuid : String) (b : Int)
    (h : lookupM uuid m.users = none) :
    CheckUser m now uuid b = { monitor := m, allowed := false, evicted := none } := by
  simp [CheckUser, h]

theorem CheckUser_known (m : Monitor) (now : Time) (uuid : String) (b : Int)
    (u : UserQuota) (h : lookupM uuid m.users = some u) :
    CheckUser m now uuid b =
      (if isExpired now u.ExpireAt then
        { monitor := { users := eraseM uuid m.users }
          allowed := false
          evicted := some (uuid, "expired") }
       else if u.TrafficLimit > 0 ∧ u.TrafficUsed + (u.SessionTraffic + b) ≥ u.TrafficLimit then
        { monitor := { users := eraseM uuid m.users }
          allowed := false
          evicted := some (uuid, "quota_exceeded") }
       else
        { monitor :=
            { users := insertM uuid { u with SessionTraffic := u.SessionTraffic + b } m.users }
          allowed := true
          evicted := none }) := by
  simp only [CheckUser, h]
  rw [eraseM_insertM]

/-- Claim C1: for a user in the quota monitor's working set with traffic
ceiling C > 0 and server-used bytes U, `CheckUser(uuid, b)` first adds `b` to
the session traffic and returns not-allowed exactly when
U + sessionTraffic >= C; for C = 0 the quota condition is never checked and
(absent expiry) the call is allowed. Since the characterization holds at
every monitor state it holds at every step of any sequence of calls, with the
session counter advanced by `b` on each allowed call. -/
theorem checkUser_quota_enforcement (m : Monitor) (now : Time) (uuid : String)
    (b : Int) (u : UserQuota) (hu : lookupM uuid m.users = some u)
    (hexp : isExpired now u.ExpireAt = false) :
    ((CheckUser m now uuid b).allowed = false ↔
      (u.TrafficLimit > 0 ∧ u.TrafficUsed + (u.SessionTraffic + b) ≥ u.TrafficLimit))
    ∧ (u.TrafficLimit = 0 → (CheckUser m now uuid b).allowed = true)
    ∧ ((CheckUser m now uuid b).allowed = true →
        lookupM uuid (CheckUser m now uuid b).monitor.users =
          some { u with SessionTraffic := u.SessionTraffic + b }) := by
  rw [CheckUser_known m now uuid b u hu]
  rw [if_neg (by simp [hexp])]
  by_cases hq : u.TrafficLimit > 0 ∧ u.TrafficUsed + (u.SessionTraffic + b) ≥ u.TrafficLimit
  · rw [if_pos hq]
    refine ⟨by simpa using hq, ?_, ?_⟩
    · intro h0
      exact absurd hq.1 (by omega)
    · intro hcontra
      simp at hcontra
  · rw [if_neg hq]
    refine ⟨by simpa using hq, fun _ => rfl, ?_⟩
    intro _
    exact lookupM_insertM_self uuid _ m.users

/-- Concrete quota entry used by the C1 witness: ceiling 100, server-used 40,
session 50. -/
def c1Quota : UserQuota :=
  { UUID := "u1", TrafficLimit := 100, TrafficUsed := 40, SessionTraffic := 50,
    ExpireAt := none, Enabled := true }

/-- Concrete monitor state used by the C1 witness. -/
def c1Monitor : Monitor := { users := [("u1", c1Quota)] }

/-- Witness for claim C1 at a concrete user: ceiling 100, server-used 40,
session 50, so adding 10 reaches the ceiling and is refused. -/
theorem checkUser_quota_enforcement_witness :
    ((CheckUser c1Monitor 0 "u1" 10).allowed = false ↔
      (c1Quota.TrafficLimit > 0 ∧
        c1Quota.TrafficUsed + (c1Quota.SessionTraffic + 10) ≥ c1Quota.TrafficLimit))
    ∧ (c1Quota.TrafficLimit = 0 → (CheckUser c1Monitor 0 "u1" 10).allowed = true)
    ∧ ((CheckUser c1Monitor 0 "u1" 10).allowed = true →
        lookupM "u1" (CheckUser c1Monitor 0 "u1" 10).monitor.users =
          some { c1Quota with SessionTraffic := c1Quota.SessionTraffic + 10 }) :=
  checkUser_quota_enforcement c1Monitor 0 "u1" 10 c1Quota (by decide) (by decide)

theorem evicted_imp_lookup_none (m : Monitor) (now : Time) (uuid : String)
    (b : Int) (reason : String)
    (h : (CheckUser m now uuid b).evicted = some (uuid, reason)) :
    lookupM uuid (CheckUser m now uuid b).monitor.users = none := by
  cases hlu : lookupM uuid m.users with
  | none =>
    rw [CheckUser_unknown m now uuid b hlu] at h
    simp at h
  | some u =>
    rw [CheckUser_known m now uuid b u hlu] at h ⊢
    by_cases hexp : isExpired now u.ExpireAt = true
    · rw [if_pos hexp]
      exact lookupM_eraseM_self uuid m.users
    · rw [if_neg hexp] at h ⊢
      by_cases hq : u.TrafficLimit > 0 ∧ u.TrafficUsed + (u.SessionTraffic + b) ≥ u.TrafficLimit
      · rw [if_pos hq]
        exact lookupM_eraseM_self uuid m.users
      · rw [if_neg hq] at h
        simp at h

/-- Claim C6: `CheckUser` reports not-allowed exactly when the uuid is
unknown, the expiry is past, or the quota is exceeded; expiry is evaluated
before quota; on a violation the user is removed from the working set with
the eviction callback invoked with reason "expired" or "quota_exceeded"; and
a user is evicted by whichever of `CheckUser` or the periodic sweep
`CheckAllUsers` runs first, never a second time by the other. -/
theorem checkUser_eviction_semantics (m : Monitor) (now now2 : Time)
    (uuid : String) (b b2 : Int) :
    (lookupM uuid m.users = none →
      CheckUser m now uuid b = { monitor := m, allowed := false, evicted := none })
    ∧ (∀ u : UserQuota, lookupM uuid m.users = some u →
        (((CheckUser m now uuid b).allowed = false ↔
            (isExpired now u.ExpireAt = true ∨
             (u.TrafficLimit > 0 ∧ u.TrafficUsed + (u.SessionTraffic + b) ≥ u.TrafficLimit)))
         ∧ (isExpired now u.ExpireAt = true →
             (CheckUser m now uuid b).evicted = some (uuid, "expired")
             ∧ lookupM uuid (CheckUser m now uuid b).monitor.users = none)
         ∧ (isExpired now u.ExpireAt = false →
             (u.TrafficLimit > 0 ∧ u.TrafficUsed + (u.SessionTraffic + b) ≥ u.TrafficLimit) →
             (CheckUser m now uuid b).evicted = some (uuid, "quota_exceeded")
             ∧ lookupM uuid (CheckUser m now uuid b).monitor.users = none)))
    ∧ (∀ reason : String, (CheckUser m now uuid b).evicted = some (uuid, reason) →
        ∀ p ∈ (CheckAllUsers (CheckUser m now uuid b).monitor now2).2, p.1 ≠ uuid)
    ∧ ((m.users.map Prod.fst).Nodup → (uuid, "expired") ∈ (CheckAllUsers m now).2 →
        CheckUser (CheckAllUsers m now).1 now2 uuid b2 =
          { monitor := (CheckAllUsers m now).1, allowed := false, evicted := none }) := by
  refine ⟨fun h => CheckUser_unknown m now uuid b h, ?_, ?_, ?_⟩
  · intro u hu
    rw [CheckUser_known m now uuid b u hu]
    by_cases hexp : isExpired now u.ExpireAt = true
    · rw [if_pos hexp]
      refine ⟨by simp [hexp], fun _ => ⟨rfl, lookupM_eraseM_self uuid m.users⟩, ?_⟩
      intro hfalse
      rw [hexp] at hfalse
      simp at hfalse
    · rw [if_neg hexp]
      by_cases hq : u.TrafficLimit > 0 ∧ u.TrafficUsed + (u.SessionTraffic + b) ≥ u.TrafficLimit
      · rw [if_pos hq]
        refine ⟨by simp [hq], fun hcontra => absurd hcontra hexp, ?_⟩
        exact fun _ _ => ⟨rfl, lookupM_eraseM_self uuid m.users⟩
      · rw [if_neg hq]
        have hexp2 : isExpired now u.ExpireAt = false := by
          cases hval : isExpired now u.ExpireAt
          · rfl
          · exact absurd hval hexp
        refine ⟨by simp [hexp2, hq], fun hcontra => absurd hcontra hexp, ?_⟩
        exact fun _ hcontra => absurd hcontra hq
  · intro reason hev p hp
    have hnone := evicted_imp_lookup_none m now uuid b reason hev
    rw [lookupM_eq_none_iff] at hnone
    simp only [CheckAllUsers, List.mem_map, List.mem_filter] at hp
    obtain ⟨q, ⟨hqmem, _⟩, hqeq⟩ := hp
    have := hnone q hqmem
    rw [← hqeq]
    exact this
  · intro hnd hmem
    simp only [CheckAllUsers, List.mem_map, List.mem_filter] at hmem
    obtain ⟨q, ⟨hqmem, hqexp⟩, hqeq⟩ := hmem
    have hquuid : q.1 = uuid := congrArg Prod.fst hqeq
    apply CheckUser_unknown
    rw [lookupM_eq_none_iff]
    intro p hp
    simp only [CheckAllUsers, List.mem_filter] at hp
    obtain ⟨hpmem, hplive⟩ := hp
    intro hpuuid
    have hkeys : q.1 = p.1 := by rw [hquuid, hpuuid]
    have hpq : q = p := List.inj_on_of_nodup_map hnd hqmem hpmem hkeys
    rw [hpq] at hqexp
    rw [hqexp] at hplive
    simp at hplive

/-- Concrete quota entry for the C6 witness: expiry at instant 5. -/
def c6Quota : UserQuota :=
  { UUID := "e1", TrafficLimit := 0, TrafficUsed := 0, SessionTraffic := 0,
    ExpireAt := some 5, Enabled := true }

/-- Concrete monitor for the C6 witness: one user whose expiry (instant 5) is
already past at instant 10. -/
def c6Monitor : Monitor := { users := [("e1", c6Quota)] }

/-- Witness for claim C6: the expired user is refused and evicted with reason
"expired" by `CheckUser`, and a subsequent sweep of the resulting state emits
no eviction for that uuid. -/
theorem checkUser_eviction_semantics_witness :
    (CheckUser c6Monitor 10 "e1" 0).evicted = some ("e1", "expired")
    ∧ lookupM "e1" (CheckUser c6Monitor 10 "e1" 0).monitor.users = none
    ∧ ∀ p ∈ (CheckAllUsers (CheckUser c6Monitor 10 "e1" 0).monitor 11).2, p.1 ≠ "e1" := by
  have h := checkUser_eviction_semantics c6Monitor 10 11 "e1" 0 0
  obtain ⟨-, hknown, hnodouble, -⟩ := h
  obtain ⟨-, hexp, -⟩ := hknown c6Quota (by decide)
  obtain ⟨hev, hnone⟩ := hexp (by decide)
  exact ⟨hev, hnone, hnodouble "expired" hev⟩

theorem lookupM_foldl_updateStep (old : List (String × UserQuota))
    (users : List User) (acc : List (String × UserQuota)) (uuid : String)
    (hnd : (users.map User.UUID).Nodup) :
    lookupM uuid (users.foldl (updateStep old) acc) =
      match users.find? (fun u => u.UUID == uuid) with
      | some u => if u.Enabled then some (mkQuota old u) else lookupM uuid acc
      | none => lookupM uuid acc := by
  induction users generalizing acc with
  | nil => rfl
  | cons u rest ih =>
    simp only [List.map_cons, List.nodup_cons] at hnd
    obtain ⟨hnotin, hndrest⟩ := hnd
    rw [List.foldl_cons]
    by_cases heq : u.UUID = uuid
    · have hfind : rest.find? (fun x => x.UUID == uuid) = none := by
        rw [List.find?_eq_none]
        intro x hx hc
        simp only [beq_iff_eq] at hc
        exact hnotin (heq ▸ hc ▸ List.mem_map_of_mem User.UUID hx)
      rw [ih _ hndrest, hfind]
      rw [List.find?_cons_of_pos _ (by simp [heq])]
      cases hE : u.Enabled
      · simp [updateStep, hE]
      · simp only [updateStep, hE, if_pos]
        rw [heq]
        simp [lookupM_insertM_self]
    · have hacc : lookupM uuid (updateStep old acc u) = lookupM uuid acc := by
        cases hE : u.Enabled
        · simp [updateStep, hE]
        · simp only [updateStep, hE, if_pos]
          exact lookupM_insertM_ne u.UUID uuid _ acc heq
      rw [ih _ hndrest, hacc]
      rw [List.find?_cons_of_neg _ (by simp [heq])]

/-- Claim C8: `UpdateUsers(list)` replaces the working set so that a UUID
present in the new list and enabled maps to the record built from the new
list's fields, with the session-traffic counter carried over from the old map
when the UUID survived and zero when it is new (`mkQuota`), and every UUID
absent from the new list (or disabled in it) is discarded. -/
theorem updateUsers_session_carryover (m : Monitor) (users : List User)
    (hnd : (users.map User.UUID).Nodup) (uuid : String) :
    lookupM uuid (UpdateUsers m users).users =
      match users.find? (fun u => u.UUID == uuid) with
      | some u => if u.Enabled then some (mkQuota m.users u) else none
      | none => none := by
  have h := lookupM_foldl_updateStep m.users users [] uuid hnd
  simpa [UpdateUsers, lookupM] using h

/-- New-list user "a" for the C8 witness (survives the update). -/
def c8UserA : User :=
  { UUID := "a", Protocols := ["vless"], SSPassword := "pa", Enabled := true,
    TrafficLimit := 10, TrafficUsed := 3, ExpireAt := none, DeviceID := "" }

/-- New-list user "b" for the C8 witness (newly appearing). -/
def c8UserB : User :=
  { UUID := "b", Protocols := ["shadowsocks"], SSPassword := "pb", Enabled := true,
    TrafficLimit := 0, TrafficUsed := 0, ExpireAt := none, DeviceID := "" }

/-- New user list for the C8 witness. -/
def c8Users : List User := [c8UserA, c8UserB]

/-- Old quota entry of "a" with accumulated session traffic 7. -/
def c8QuotaA : UserQuota :=
  { UUID := "a", TrafficLimit := 5, TrafficUsed := 1, SessionTraffic := 7,
    ExpireAt := none, Enabled := true }

/-- Old quota entry of "gone", absent from the new list. -/
def c8QuotaGone : UserQuota :=
  { UUID := "gone", TrafficLimit := 0, TrafficUsed := 0, SessionTraffic := 9,
    ExpireAt := none, Enabled := true }

/-- Old monitor state for the C8 witness. -/
def c8Monitor : Monitor := { users := [("a", c8QuotaA), ("gone", c8QuotaGone)] }

/-- Witness for claim C8: surviving "a" keeps session traffic 7 with the new
list's ceiling and used bytes, new "b" starts at session 0, and "gone" is
discarded. -/
theorem updateUsers_session_carryover_witness :
    (lookupM "a" (UpdateUsers c8Monitor c8Users).users =
      match c8Users.find? (fun u => u.UUID == "a") with
      | some u => if u.Enabled then some (mkQuota c8Monitor.users u) else none
      | none => none)
    ∧ lookupM "a" (UpdateUsers c8Monitor c8Users).users =
        some { UUID := "a", TrafficLimit := 10, TrafficUsed := 3, SessionTraffic := 7,
               ExpireAt := none, Enabled := true }
    ∧ lookupM "b" (UpdateUsers c8Monitor c8Users).users =
        some { UUID := "b", TrafficLimit := 0, TrafficUsed := 0, SessionTraffic := 0,
               ExpireAt := none, Enabled := true }
    ∧ lookupM "gone" (UpdateUsers c8Monitor c8Users).users = none :=
  ⟨updateUsers_session_carryover c8Monitor c8Users (by decide) "a", by decide, by decide,
   by decide⟩

/-! ## Lemmas about Generate -/

/-- VLESS credential entries the protocol loop emits for user `u` over the
protocol list `ps`: one per occurrence of "vless". -/
def vlessOfProtocols (u : User) (ps : List String) : List VlessUser :=
  (ps.filter (fun p => decide (p = "vless"))).map
    (fun _ => { uuid := u.UUID, flow := "xtls-rprx-vision" })

/-- Shadowsocks credential entries the protocol loop emits for user `u`. -/
def ssOfProtocols (u : User) (ps : List String) : List SSUser :=
  (ps.filter (fun p => decide (p = "shadowsocks"))).map
    (fun _ => { name := u.UUID, password := u.SSPassword })

theorem foldl_genProtoStep (u : User) (ps : List String) (acc : GenAcc) :
    ps.foldl (genProtoStep u) acc =
      { vlessUsers := acc.vlessUsers ++ vlessOfProtocols u ps
        ssUsers := acc.ssUsers ++ ssOfProtocols u ps
        statsUsers := acc.statsUsers } := by
  induction ps generalizing acc with
  | nil => simp [vlessOfProtocols, ssOfProtocols]
  | cons p rest ih =>
    rw [List.foldl_cons, ih]
    by_cases h1 : p = "vless"
    · simp [genProtoStep, h1, vlessOfProtocols, ssOfProtocols, List.filter_cons]
    · by_cases h2 : p = "shadowsocks"
      · simp [genProtoStep, h1, h2, vlessOfProtocols, ssOfProtocols, List.filter_cons]
      · simp [genProtoStep, h1, h2, vlessOfProtocols, ssOfProtocols, List.filter_cons]

/-- Per-user VLESS contribution of the `Generate` user loop. -/
def vlessContrib (cb : Bool) (u : User) : List VlessUser :=
  if cb || ! u.Enabled then [] else vlessOfProtocols u u.Protocols

/-- Per-user Shadowsocks contribution of the `Generate` user loop. -/
def ssContrib (cb : Bool) (u : User) : List SSUser :=
  if cb || ! u.Enabled then [] else ssOfProtocols u u.Protocols

/-- Per-user stats-list contribution of the `Generate` user loop. -/
def statsContrib (cb : Bool) (u : User) : List String :=
  if cb || ! u.Enabled then [] else [u.UUID]

theorem foldl_genUserStep (cb : Bool) (users : List User) (acc : GenAcc) :
    users.foldl (genUserStep cb) acc =
      { vlessUsers := acc.vlessUsers ++ users.flatMap (vlessContrib cb)
        ssUsers := acc.ssUsers ++ users.flatMap (ssContrib cb)
        statsUsers := acc.statsUsers ++ users.flatMap (statsContrib cb) } := by
  induction users generalizing acc with
  | nil => simp
  | cons u rest ih =>
    rw [List.foldl_cons, ih]
    by_cases hskip : (cb || ! u.Enabled) = true
    · simp [genUserStep, hskip, vlessContrib, ssContrib, statsContrib]
    · rw [genUserStep, if_neg (by simp_all)]
      rw [foldl_genProtoStep]
      simp [vlessContrib, ssContrib, statsContrib, hskip]

theorem Generate_eq (g : Generator) (users : List User) (sni : String) (cb : Bool) :
    Generate g users sni cb =
      { vlessUsers := users.flatMap (vlessContrib cb)
        ssUsers := users.flatMap (ssContrib cb)
        statsUsers := users.flatMap (statsContrib cb)
        vlessPort := g.vlessPort
        ssPort := g.ssPort
        realitySNI := sni } := by
  simp [Generate, foldl_genUserStep]

theorem statsBind_false (users : List User) :
    users.flatMap (statsContrib false) = (users.filter (fun u => u.Enabled)).map User.UUID := by
  induction users with
  | nil => rfl
  | cons u rest ih =>
    cases hE : u.Enabled
    · simp [statsContrib, hE, ih, List.filter_cons]
    · simp [statsContrib, hE, ih, List.filter_cons]

theorem mem_vlessContrib (cb : Bool) (u : User) (vu : VlessUser)
    (h : vu ∈ vlessContrib cb u) : u.Enabled = true ∧ vu.uuid = u.UUID := by
  by_cases hskip : (cb || ! u.Enabled) = true
  · rw [vlessContrib, if_pos hskip] at h
    simp at h
  · rw [vlessContrib, if_neg hskip] at h
    simp only [Bool.or_eq_true, Bool.not_eq_true] at hskip
    push_neg at hskip
    refine ⟨by simpa using hskip.2, ?_⟩
    simp only [vlessOfProtocols, List.mem_map] at h
    obtain ⟨-, -, hvu⟩ := h
    rw [← hvu]

theorem mem_ssContrib (cb : Bool) (u : User) (su : SSUser)
    (h : su ∈ ssContrib cb u) : u.Enabled = true ∧ su.name = u.UUID := by
  by_cases hskip : (cb || ! u.Enabled) = true
  · rw [ssContrib, if_pos hskip] at h
    simp at h
  · rw [ssContrib, if_neg hskip] at h
    simp only [Bool.or_eq_true, Bool.not_eq_true] at hskip
    push_neg at hskip
    refine ⟨by simpa using hskip.2, ?_⟩
    simp only [ssOfProtocols, List.mem_map] at h
    obtain ⟨-, -, hsu⟩ := h
    rw [← hsu]

/-- Claim C2, amended: the stats-export list of a generated configuration
equals the UUIDs of the enabled users (in input order) regardless of their
protocol sets — the source adds every enabled user to the stats list even if
it has no protocols; each appears exactly once (the list is duplicate-free
given unique input UUIDs); the UUIDs of every per-protocol credential list
are contained in the stats list; and a disabled user never appears in any
per-protocol credential list. -/
theorem generate_stats_list_invariant (g : Generator) (users : List User)
    (sni : String) (hnd : (users.map User.UUID).Nodup) :
    (Generate g users sni false).statsUsers =
      (users.filter (fun u => u.Enabled)).map User.UUID
    ∧ (Generate g users sni false).statsUsers.Nodup
    ∧ (∀ vu ∈ (Generate g users sni false).vlessUsers,
        vu.uuid ∈ (Generate g users sni false).statsUsers)
    ∧ (∀ su ∈ (Generate g users sni false).ssUsers,
        su.name ∈ (Generate g users sni false).statsUsers)
    ∧ (∀ u ∈ users, u.Enabled = false →
        (∀ vu ∈ (Generate g users sni false).vlessUsers, vu.uuid ≠ u.UUID)
        ∧ (∀ su ∈ (Generate g users sni false).ssUsers, su.name ≠ u.UUID)) := by
  have hstats : (Generate g users sni false).statsUsers =
      (users.filter (fun u => u.Enabled)).map User.UUID := by
    rw [Generate_eq]
    exact statsBind_false users
  have hsub : ((users.filter (fun u => u.Enabled)).map User.UUID).Sublist
      (users.map User.UUID) := (List.filter_sublist users).map User.UUID
  refine ⟨hstats, by rw [hstats]; exact hnd.sublist hsub, ?_, ?_, ?_⟩
  · intro vu hvu
    rw [Generate_eq] at hvu
    simp only [List.mem_flatMap] at hvu
    obtain ⟨u2, hu2, hvu2⟩ := hvu
    obtain ⟨hen, huuid⟩ := mem_vlessContrib false u2 vu hvu2
    rw [hstats, huuid]
    exact List.mem_map_of_mem User.UUID (List.mem_filter.mpr ⟨hu2, by simp [hen]⟩)
  · intro su hsu
    rw [Generate_eq] at hsu
    simp only [List.mem_flatMap] at hsu
    obtain ⟨u2, hu2, hsu2⟩ := hsu
    obtain ⟨hen, hname⟩ := mem_ssContrib false u2 su hsu2
    rw [hstats, hname]
    exact List.mem_map_of_mem User.UUID (List.mem_filter.mpr ⟨hu2, by simp [hen]⟩)
  · intro u hu hdis
    constructor
    · intro vu hvu heq
      rw [Generate_eq] at hvu
      simp only [List.mem_flatMap] at hvu
      obtain ⟨u2, hu2, hvu2⟩ := hvu
      obtain ⟨hen, huuid⟩ := mem_vlessContrib false u2 vu hvu2
      have : u2 = u := List.inj_on_of_nodup_map hnd hu2 hu (by rw [← huuid, heq])
      rw [this] at hen
      rw [hen] at hdis
      simp [hen] at hdis
    · intro su hsu heq
      rw [Generate_eq] at hsu
      simp only [List.mem_flatMap] at hsu
      obtain ⟨u2, hu2, hsu2⟩ := hsu
      obtain ⟨hen, hname⟩ := mem_ssContrib false u2 su hsu2
      have : u2 = u := List.inj_on_of_nodup_map hnd hu2 hu (by rw [← hname, heq])
      rw [this] at hen
      rw [hen] at hdis
      simp [hen] at hdis

/-- Generator instance used by concrete C2/C5 configurations. -/
def cGen : Generator :=
  { vlessPort := 443, ssPort := 8388, privateKey := "pk", shortIDs := ["sid"] }

/-- Enabled two-protocol user for the C2 witness. -/
def c2UserA : User :=
  { UUID := "a", Protocols := ["vless", "shadowsocks"], SSPassword := "pa",
    Enabled := true, TrafficLimit := 0, TrafficUsed := 0, ExpireAt := none, DeviceID := "" }

/-- Disabled user for the C2 witness. -/
def c2UserD : User :=
  { UUID := "d", Protocols := ["vless"], SSPassword := "pd", Enabled := false,
    TrafficLimit := 0, TrafficUsed := 0, ExpireAt := none, DeviceID := "" }

/-- User list for the C2 witness. -/
def c2Users : List User := [c2UserA, c2UserD]

/-- Witness for claim C2 (amended) on a two-user list with one disabled user:
the stats list is exactly the enabled UUIDs, here ["a"]. -/
theorem generate_stats_list_invariant_witness :
    (Generate cGen c2Users "sni.example" false).statsUsers =
      (c2Users.filter (fun u => u.Enabled)).map User.UUID
    ∧ (Generate cGen c2Users "sni.example" false).statsUsers = ["a"] :=
  ⟨(generate_stats_list_invariant cGen c2Users "sni.example" (by decide)).1, by decide⟩

/-- Modelled from the spec (§3/§8 wording of the stats-list invariant): the
stats-export list said to equal "the set of enabled, non-circuit-broken users
with at least one enabled protocol". -/
def specStatsList (users : List User) (cb : Bool) : List String :=
  if cb then []
  else (users.filter (fun u => u.Enabled && ! u.Protocols.isEmpty)).map User.UUID

/-- Enabled user with an empty protocol set, refuting the spec's stats-list
wording. -/
def c2NoProtoUser : User :=
  { UUID := "np", Protocols := [], SSPassword := "", Enabled := true,
    TrafficLimit := 0, TrafficUsed := 0, ExpireAt := none, DeviceID := "" }

/-- Counterexample for claim C2 as stated: an enabled user with no protocols
is placed in the generated stats-export list, but the spec's description
("users with at least one enabled protocol") excludes it. -/
theorem generate_stats_list_spec_counterexample :
    (Generate cGen [c2NoProtoUser] "sni.example" false).statsUsers = ["np"]
    ∧ specStatsList [c2NoProtoUser] false = []
    ∧ (Generate cGen [c2NoProtoUser] "sni.example" false).statsUsers ≠
        specStatsList [c2NoProtoUser] false := by decide

/-- Claim C5: with the circuit breaker enabled the generated configuration's
per-protocol user lists and stats list are empty for every input user list;
`SetCircuitBreaker` never touches the stored user data; and after enabling
and then disabling the breaker, regeneration from the store produces exactly
the configuration of a store whose breaker was never enabled. -/
theorem circuit_breaker_suppression (g : Generator) (users : List User)
    (sni : String) (s : Store) (reason message r2 m2 : String) (now now2 : Time)
    (h : IsCircuitBreakerEnabled s = false) :
    (Generate g users sni true).vlessUsers = []
    ∧ (Generate g users sni true).ssUsers = []
    ∧ (Generate g users sni true).statsUsers = []
    ∧ (SetCircuitBreaker s true reason message now true).1.users = s.users
    ∧ (SetCircuitBreaker (SetCircuitBreaker s true reason message now true).1
        false r2 m2 now2 true).1.users = s.users
    ∧ regenerateConfig g
        (SetCircuitBreaker (SetCircuitBreaker s true reason message now true).1
          false r2 m2 now2 true).1 = regenerateConfig g s := by
  have hv : ∀ u : User, vlessContrib true u = [] := by
    intro u
    simp [vlessContrib]
  have hs : ∀ u : User, ssContrib true u = [] := by
    intro u
    simp [ssContrib]
  have hst : ∀ u : User, statsContrib true u = [] := by
    intro u
    simp [statsContrib]
  refine ⟨?_, ?_, ?_, rfl, rfl, ?_⟩
  · rw [Generate_eq]
    simp [hv]
  · rw [Generate_eq]
    simp [hs]
  · rw [Generate_eq]
    simp [hst]
  · simp only [regenerateConfig, h]
    simp [SetCircuitBreaker, ListUsers, IsCircuitBreakerEnabled]

/-- Local user stored in the C5 witness store. -/
def c5LocalUser : LocalUser :=
  { UUID := "lu", Name := "n", Protocols := ["vless"], SSPassword := "pw",
    Enabled := true, TrafficLimit := 0, TrafficUsed := 0, ExpireAt := none,
    CreatedAt := 0, UpdatedAt := 0 }

/-- Store for the C5 witness: one user, breaker off. -/
def c5Store : Store := { users := [("lu", c5LocalUser)], circuitBreaker := none }

/-- Witness for claim C5 at a concrete one-user store: the breaker empties
the generated lists without touching the stored user, and a breaker
enable/disable round trip regenerates the original configuration. -/
theorem circuit_breaker_suppression_witness :
    (Generate cGen [localToConfigUser c5LocalUser] "sni.example" true).vlessUsers = []
    ∧ (Generate cGen [localToConfigUser c5LocalUser] "sni.example" true).ssUsers = []
    ∧ (Generate cGen [localToConfigUser c5LocalUser] "sni.example" true).statsUsers = []
    ∧ (SetCircuitBreaker c5Store true "manual" "msg" 3 true).1.users = c5Store.users
    ∧ (SetCircuitBreaker (SetCircuitBreaker c5Store true "manual" "msg" 3 true).1
        false "" "" 4 true).1.users = c5Store.users
    ∧ regenerateConfig cGen
        (SetCircuitBreaker (SetCircuitBreaker c5Store true "manual" "msg" 3 true).1
          false "" "" 4 true).1 = regenerateConfig cGen c5Store :=
  circuit_breaker_suppression cGen [localToConfigUser c5LocalUser] "sni.example"
    c5Store "manual" "msg" "" "" 3 4 (by decide)

/-! ## Lemmas about map-building folds -/

theorem lookupM_foldl_insertM {α β : Type} (kf : β → String) (vf : β → α)
    (xs : List β) (acc : List (String × α)) (uuid : String)
    (hnd : (xs.map kf).Nodup) :
    lookupM uuid (xs.foldl (fun m x => insertM (kf x) (vf x) m) acc) =
      match xs.find? (fun x => kf x == uuid) with
      | some x => some (vf x)
      | none => lookupM uuid acc := by
  induction xs generalizing acc with
  | nil => rfl
  | cons x rest ih =>
    simp only [List.map_cons, List.nodup_cons] at hnd
    obtain ⟨hnotin, hndrest⟩ := hnd
    rw [List.foldl_cons]
    by_cases heq : kf x = uuid
    · have hfind : rest.find? (fun y => kf y == uuid) = none := by
        rw [List.find?_eq_none]
        intro y hy hc
        simp only [beq_iff_eq] at hc
        exact hnotin (heq ▸ hc ▸ List.mem_map_of_mem kf hy)
      rw [ih _ hndrest, hfind]
      rw [List.find?_cons_of_pos _ (by simp [heq])]
      rw [heq]
      simp [lookupM_insertM_self]
    · rw [ih _ hndrest]
      rw [List.find?_cons_of_neg _ (by simp [heq])]
      rw [lookupM_insertM_ne (kf x) uuid _ acc heq]

theorem keys_nodup_insertM {α : Type} (k : String) (v : α) (l : List (String × α))
    (h : (l.map Prod.fst).Nodup) : ((insertM k v l).map Prod.fst).Nodup := by
  simp only [insertM, List.map_cons, List.nodup_cons]
  constructor
  · intro hmem
    obtain ⟨p, hp, hpk⟩ := List.mem_map.mp hmem
    exact (lookupM_eq_none_iff k (eraseM k l)).mp (lookupM_eraseM_self k l) p hp hpk
  · exact h.sublist ((List.filter_sublist l).map Prod.fst)

theorem keys_toFinset_insertM {α : Type} (k : String) (v : α) (l : List (String × α)) :
    ((insertM k v l).map Prod.fst).toFinset = insert k (l.map Prod.fst).toFinset := by
  ext x
  by_cases hx : x = k
  · subst hx
    simp [insertM]
  · simp only [insertM, List.map_cons, List.toFinset_cons, Finset.mem_insert,
      List.mem_toFinset, List.mem_map, eraseM, List.mem_filter, hx, false_or]
    constructor
    · rintro ⟨p, ⟨hp, -⟩, rfl⟩
      exact ⟨p, hp, rfl⟩
    · rintro ⟨p, hp, rfl⟩
      exact ⟨p, ⟨hp, by simpa using hx⟩, rfl⟩

theorem keys_toFinset_foldl_insertM {α β : Type} (kf : β → String) (vf : β → α)
    (xs : List β) (acc : List (String × α)) :
    ((xs.foldl (fun m x => insertM (kf x) (vf x) m) acc).map Prod.fst).toFinset =
      (xs.map kf).toFinset ∪ (acc.map Prod.fst).toFinset := by
  induction xs generalizing acc with
  | nil => simp
  | cons x rest ih =>
    rw [List.foldl_cons, ih, keys_toFinset_insertM]
    ext y
    simp only [List.map_cons, List.toFinset_cons, Finset.mem_union, Finset.mem_insert]
    tauto

theorem keys_nodup_foldl_insertM {α β : Type} (kf : β → String) (vf : β → α)
    (xs : List β) (acc : List (String × α)) (h : (acc.map Prod.fst).Nodup) :
    ((xs.foldl (fun m x => insertM (kf x) (vf x) m) acc).map Prod.fst).Nodup := by
  induction xs generalizing acc with
  | nil => exact h
  | cons x rest ih =>
    rw [List.foldl_cons]
    exact ih _ (keys_nodup_insertM _ _ _ h)

/-- Claim C7: in hybrid mode the effective user list is the union keyed by
UUID with local entries overriding remote entries of the same UUID — lookup
returns the converted local user when the UUID is locally present, the remote
user otherwise, and the merged map has exactly one entry per UUID in the
union of the two UUID sets. -/
theorem hybrid_merge_local_override (remote : List User) (localUsers : List LocalUser)
    (hr : (remote.map User.UUID).Nodup) (hl : (localUsers.map LocalUser.UUID).Nodup) :
    (∀ uuid : String,
      lookupM uuid (mergeHybrid remote localUsers) =
        match localUsers.find? (fun lu => lu.UUID == uuid) with
        | some lu => some (localToConfigUser lu)
        | none => remote.find? (fun u => u.UUID == uuid))
    ∧ (mergeHybrid remote localUsers).length =
        ((remote.map User.UUID).toFinset ∪ (localUsers.map LocalUser.UUID).toFinset).card := by
  have hremote : ∀ uuid : String,
      lookupM uuid (remote.foldl insertRemoteStep []) =
        remote.find? (fun u => u.UUID == uuid) := by
    intro uuid
    have h := lookupM_foldl_insertM User.UUID id remote [] uuid hr
    refine Eq.trans h ?_
    cases remote.find? (fun u => u.UUID == uuid) <;> rfl
  constructor
  · intro uuid
    have h := lookupM_foldl_insertM LocalUser.UUID localToConfigUser localUsers
      (remote.foldl insertRemoteStep []) uuid hl
    refine Eq.trans h ?_
    cases localUsers.find? (fun lu => lu.UUID == uuid) with
    | none => exact hremote uuid
    | some lu => rfl
  · have hnodup : ((mergeHybrid remote localUsers).map Prod.fst).Nodup := by
      have hbase : ((remote.foldl insertRemoteStep []).map Prod.fst).Nodup :=
        keys_nodup_foldl_insertM User.UUID id remote [] (by simp)
      exact keys_nodup_foldl_insertM LocalUser.UUID localToConfigUser localUsers _ hbase
    have hsets : ((mergeHybrid remote localUsers).map Prod.fst).toFinset =
        (remote.map User.UUID).toFinset ∪ (localUsers.map LocalUser.UUID).toFinset := by
      have hbase : ((remote.foldl insertRemoteStep []).map Prod.fst).toFinset =
          (remote.map User.UUID).toFinset :=
        Eq.trans (keys_toFinset_foldl_insertM User.UUID id remote []) (by simp)
      have houter := keys_toFinset_foldl_insertM LocalUser.UUID localToConfigUser
        localUsers (remote.foldl insertRemoteStep [])
      refine Eq.trans houter ?_
      rw [hbase]
      exact Finset.union_comm _ _
    calc (mergeHybrid remote localUsers).length
        = ((mergeHybrid remote localUsers).map Prod.fst).length :=
          (List.length_map _ _).symm
      _ = ((mergeHybrid remote localUsers).map Prod.fst).toFinset.card :=
          (List.toFinset_card_of_nodup hnodup).symm
      _ = ((remote.map User.UUID).toFinset ∪
            (localUsers.map LocalUser.UUID).toFinset).card := by rw [hsets]

/-- Remote version of user "a" for the C7 witness. -/
def c7RemoteA : User :=
  { UUID := "a", Protocols := ["vless"], SSPassword := "remote-pw", Enabled := true,
    TrafficLimit := 111, TrafficUsed := 11, ExpireAt := none, DeviceID := "dev" }

/-- Local version of user "a" (same UUID, different fields) for the C7 witness. -/
def c7LocalA : LocalUser :=
  { UUID := "a", Name := "alice", Protocols := ["shadowsocks"], SSPassword := "local-pw",
    Enabled := false, TrafficLimit := 222, TrafficUsed := 22, ExpireAt := some 99,
    CreatedAt := 1, UpdatedAt := 2 }

/-- Local-only user "b" for the C7 witness. -/
def c7LocalB : LocalUser :=
  { UUID := "b", Name := "bob", Protocols := ["vless"], SSPassword := "pb",
    Enabled := true, TrafficLimit := 0, TrafficUsed := 0, ExpireAt := none,
    CreatedAt := 3, UpdatedAt := 4 }

/-- Witness for claim C7: remote A plus local A (same UUID) and local B merge
to exactly two entries, and the entry for "a" carries the local fields. -/
theorem hybrid_merge_local_override_witness :
    lookupM "a" (mergeHybrid [c7RemoteA] [c7LocalA, c7LocalB]) =
      some (localToConfigUser c7LocalA)
    ∧ (mergeHybrid [c7RemoteA] [c7LocalA, c7LocalB]).length = 2 := by
  have h := hybrid_merge_local_override [c7RemoteA] [c7LocalA, c7LocalB]
    (by decide) (by decide)
  refine ⟨Eq.trans (h.1 "a") (by decide), Eq.trans h.2 (by decide)⟩

/-! ## Sync idempotence (claim C4) -/

/-- Claim C4, amended: in remote mode (`syncAndApply`) a fetch whose version
token equals the last-applied version performs no monitor update, no cache
write, no config regeneration and no reload, leaving the agent state
unchanged; in hybrid mode (`syncAndApplyHybrid`) the cycle has no version
comparison and always writes the cache, regenerates the config and reloads a
running subprocess, even for an unchanged version token. -/
theorem sync_unchanged_version (g : Generator) (a : AgentState) (st : Store)
    (resp : UsersResponse) (running : Bool)
    (h : resp.Version = a.currentVersion) :
    syncAndApply g a resp running =
      (a, { cacheWrites := 0, configWrites := 0, reloads := 0 })
    ∧ (syncAndApplyHybrid g a st resp running).2 =
      { cacheWrites := 1, configWrites := 1, reloads := if running then 1 else 0 } := by
  constructor
  · simp [syncAndApply, h]
  · rfl

/-- Agent state with last-applied version "v1" for the C4 theorems. -/
def c4Agent : AgentState :=
  { currentVersion := "v1", monitor := { users := [] }, cachedUsers := none,
    diskConfig := none }

/-- Fetched response carrying the same version token "v1". -/
def c4Resp : UsersResponse := { Version := "v1", Users := [], RealitySNI := "sni" }

/-- Empty local store for the C4 theorems. -/
def c4Store : Store := { users := [], circuitBreaker := none }

/-- Counterexample for claim C4 as stated: in hybrid mode a sync cycle whose
fetched version token equals the last-applied version still performs a cache
write, a config regeneration and a reload of the running subprocess. -/
theorem sync_idempotent_hybrid_counterexample :
    c4Resp.Version = c4Agent.currentVersion
    ∧ (syncAndApplyHybrid cGen c4Agent c4Store c4Resp true).2 ≠
        { cacheWrites := 0, configWrites := 0, reloads := 0 }
    ∧ (syncAndApplyHybrid cGen c4Agent c4Store c4Resp true).2 =
        { cacheWrites := 1, configWrites := 1, reloads := 1 } := by decide

/-- Witness for claim C4 (amended) at the concrete unchanged-version sync. -/
theorem sync_unchanged_version_witness :
    syncAndApply cGen c4Agent c4Resp true =
      (c4Agent, { cacheWrites := 0, configWrites := 0, reloads := 0 })
    ∧ (syncAndApplyHybrid cGen c4Agent c4Store c4Resp true).2 =
      { cacheWrites := 1, configWrites := 1, reloads := if true then 1 else 0 } :=
  sync_unchanged_version cGen c4Agent c4Store c4Resp true (by decide)

/-! ## CreateUser atomicity (claim C10) -/

/-- Claim C10: when the `Store.save` disk write fails, `CreateUser` returns
an error, the in-memory user map is restored to its pre-call value (the whole
store equals its pre-call state), and the user-changed callback is not
invoked. The freshness of the generated UUID is a hypothesis (a `uuid.New()`
collision with an existing key would make the rollback delete that entry). -/
theorem createUser_atomic_on_save_failure (s : Store) (name : String)
    (protocols : List String) (trafficLimit expireDays : Int)
    (newUUID ssPassword : String) (now : Time)
    (hfresh : lookupM newUUID s.users = none) :
    (CreateUser s name protocols trafficLimit expireDays newUUID ssPassword now false).result
      = none
    ∧ (CreateUser s name protocols trafficLimit expireDays newUUID ssPassword now false).store
      = s
    ∧ (CreateUser s name protocols trafficLimit expireDays newUUID ssPassword now false).callbackInvoked
      = false := by
  refine ⟨rfl, ?_, rfl⟩
  show ({ s with users := eraseM newUUID (insertM newUUID _ s.users) } : Store) = s
  rw [eraseM_insertM, eraseM_of_not_mem newUUID s.users hfresh]

/-- Pre-existing local user for the C10 witness store. -/
def c10Existing : LocalUser :=
  { UUID := "old", Name := "o", Protocols := ["vless"], SSPassword := "po",
    Enabled := true, TrafficLimit := 0, TrafficUsed := 0, ExpireAt := none,
    CreatedAt := 0, UpdatedAt := 0 }

/-- Store for the C10 witness: one pre-existing user. -/
def c10Store : Store := { users := [("old", c10Existing)], circuitBreaker := none }

/-- Witness for claim C10: a failed save rolls the store back to exactly its
pre-call one-user state with no callback. -/
theorem createUser_atomic_on_save_failure_witness :
    (CreateUser c10Store "alice" [] 100 7 "fresh" "pw" 50 false).result = none
    ∧ (CreateUser c10Store "alice" [] 100 7 "fresh" "pw" 50 false).store = c10Store
    ∧ (CreateUser c10Store "alice" [] 100 7 "fresh" "pw" 50 false).callbackInvoked = false :=
  createUser_atomic_on_save_failure c10Store "alice" [] 100 7 "fresh" "pw" 50 (by decide)

/-! ## Start guards and port-wait gating (claim C9) -/

theorem waitLoop_some_spec (portOccupied : Nat → Bool) (fuel i k : Nat)
    (h : waitLoop portOccupied fuel i = some k) :
    portOccupied k = false ∧ i ≤ k ∧ k < i + fuel
    ∧ ∀ j, i ≤ j → j < k → portOccupied j = true := by
  induction fuel generalizing i with
  | zero => simp [waitLoop] at h
  | succ n ih =>
    rw [waitLoop] at h
    cases hp : portOccupied i
    · rw [hp] at h
      simp only [Bool.false_eq_true, if_false, Option.some.injEq] at h
      subst h
      exact ⟨hp, le_refl i, by omega, fun j hj1 hj2 => absurd hj1 (by omega)⟩
    · rw [hp] at h
      simp only [if_true] at h
      obtain ⟨hk, hk1, hk2, hall⟩ := ih (i + 1) h
      refine ⟨hk, by omega, by omega, fun j hj1 hj2 => ?_⟩
      by_cases hji : j = i
      · rw [hji]
        exact hp
      · exact hall j (by omega) hj2

theorem waitLoop_none_of_occupied (portOccupied : Nat → Bool) (fuel i : Nat)
    (h : ∀ j, i ≤ j → j < i + fuel → portOccupied j = true) :
    waitLoop portOccupied fuel i = none := by
  induction fuel generalizing i with
  | zero => rfl
  | succ n ih =>
    rw [waitLoop]
    rw [h i (le_refl i) (by omega)]
    simp only [if_true]
    exact ih (i + 1) (fun j hj1 hj2 => h j (by omega) (by omega))

/-- Claim C9: `startLocked` returns an error without spawning when already
running, when the config file is missing or when the binary is missing; a
spawn happens only right after a poll that observed the control port free
(with every earlier poll having observed it occupied); and if the port stays
occupied for the whole bounded wait (polls 0..30 of the 30-second window) the
call returns a timeout error instead of spawning. -/
theorem startLocked_guards (running : Bool) (env : StartEnv) :
    (running = true → startLocked running env = .errAlreadyRunning)
    ∧ (running = false → env.configExists = false →
        startLocked running env = .errConfigMissing)
    ∧ (running = false → env.configExists = true → env.binExists = false →
        startLocked running env = .errBinMissing)
    ∧ (∀ i, startLocked running env = .started i →
        env.portOccupied i = false ∧ i ≤ 30 ∧ ∀ j, j < i → env.portOccupied j = true)
    ∧ ((∀ j, j ≤ 30 → env.portOccupied j = true) → running = false →
        env.configExists = true → env.binExists = true →
        startLocked running env = .errPortTimeout) := by
  refine ⟨?_, ?_, ?_, ?_, ?_⟩
  · intro hr
    simp [startLocked, hr]
  · intro hr hc
    simp [startLocked, hr, hc]
  · intro hr hc hb
    simp [startLocked, hr, hc, hb]
  · intro i hst
    cases hr : running
    · cases hc : env.configExists
      · rw [startLocked] at hst
        simp [hr, hc] at hst
      · cases hb : env.binExists
        · rw [startLocked] at hst
          simp [hr, hc, hb] at hst
        · rw [startLocked] at hst
          simp only [hr, hc, hb, Bool.false_eq_true, if_false, Bool.not_true,
            Bool.not_false, if_true] at hst
          cases hw : waitForPortAvailable env.portOccupied with
          | none =>
            rw [hw] at hst
            simp at hst
          | some k =>
            rw [hw] at hst
            simp only [StartResult.started.injEq] at hst
            subst hst
            obtain ⟨hfree, -, hlt, hall⟩ :=
              waitLoop_some_spec env.portOccupied 31 0 k hw
            exact ⟨hfree, by omega, fun j hj => hall j (by omega) hj⟩
    · rw [startLocked] at hst
      simp [hr] at hst
  · intro hocc hr hc hb
    have hw : waitForPortAvailable env.portOccupied = none :=
      waitLoop_none_of_occupied env.portOccupied 31 0
        (fun j hj1 hj2 => hocc j (by omega))
    simp [startLocked, hr, hc, hb, hw]

/-- Environment for the C9 witness: config and binary present, port occupied
at polls 0..2 and free from poll 3 on. -/
def c9Env : StartEnv :=
  { configExists := true, binExists := true, portOccupied := fun i => decide (i < 3) }

/-- Witness for claim C9: with the port draining for three polls, the spawn
happens exactly after the first free observation (poll 3), every earlier poll
having seen the port occupied. -/
theorem startLocked_guards_witness :
    startLocked false c9Env = .started 3
    ∧ (c9Env.portOccupied 3 = false ∧ 3 ≤ 30 ∧
        ∀ j, j < 3 → c9Env.portOccupied j = true) :=
  ⟨by decide, (startLocked_guards false c9Env).2.2.2.1 3 (by decide)⟩

/-! ## Crash-restart backoff (claim C3) -/

theorem runCrashes_dead (s : MState) (hrun : s.running = false) (ts : List Time) :
    runCrashes s ts = (s, []) := by
  induction ts with
  | nil => rfl
  | cons t rest ih =>
    have hstep : monitorStep s t = (s, none) := by
      cases s with
      | mk r c l st =>
        simp only at hrun
        subst hrun
        cases st <;> simp [monitorStep]
    simp [runCrashes, hstep, ih]

/-- Claim C3: six crashes, each within 10 seconds of the timestamp recorded
for the previous restart attempt (`lastRestartAt`), produce exactly five
restart attempts with backoff waits 2, 4, 8, 16, 32 seconds — non-decreasing
and capped at 32 — after which the supervisor gives up: no later crash event
ever produces another automatic restart attempt; an explicit `Reload` (legal
only on a running manager) resets the consecutive-crash counter to zero.
States are written ⟨running, restartCount, lastRestartAt, stopRequested⟩. -/
theorem crash_backoff_cap (tinit t0 t1 t2 t3 t4 t5 : Time)
    (h0 : t0 - tinit ≥ 10) (h1 : t1 - t0 < 10) (h2 : t2 - t1 < 10)
    (h3 : t3 - t2 < 10) (h4 : t4 - t3 < 10) (h5 : t5 - t4 < 10) :
    runCrashes ⟨true, 0, tinit, false⟩ [t0, t1, t2, t3, t4, t5] =
      (⟨false, 6, t5, false⟩, [2, 4, 8, 16, 32])
    ∧ (∀ ts : List Time,
        runCrashes ⟨false, 6, t5, false⟩ ts = (⟨false, 6, t5, false⟩, []))
    ∧ (∀ s : MState, s.running = true →
        Reload s = some ⟨true, 0, s.lastRestartAt, false⟩) := by
  have hn0 : ¬ (t0 - tinit < 10) := not_lt.mpr h0
  have e0 : monitorStep ⟨true, 0, tinit, false⟩ t0 = (⟨true, 1, t0, false⟩, some 2) := by
    norm_num [monitorStep, hn0, maxRestartAttempts]
  have e1 : monitorStep ⟨true, 1, t0, false⟩ t1 = (⟨true, 2, t1, false⟩, some 4) := by
    norm_num [monitorStep, h1, maxRestartAttempts]
  have e2 : monitorStep ⟨true, 2, t1, false⟩ t2 = (⟨true, 3, t2, false⟩, some 8) := by
    norm_num [monitorStep, h2, maxRestartAttempts]
  have e3 : monitorStep ⟨true, 3, t2, false⟩ t3 = (⟨true, 4, t3, false⟩, some 16) := by
    norm_num [monitorStep, h3, maxRestartAttempts]
  have e4 : monitorStep ⟨true, 4, t3, false⟩ t4 = (⟨true, 5, t4, false⟩, some 32) := by
    norm_num [monitorStep, h4, maxRestartAttempts]
  have e5 : monitorStep ⟨true, 5, t4, false⟩ t5 = (⟨false, 6, t5, false⟩, none) := by
    norm_num [monitorStep, h5, maxRestartAttempts]
  refine ⟨?_, ?_, ?_⟩
  · simp [runCrashes, e0, e1, e2, e3, e4, e5]
  · exact fun ts => runCrashes_dead _ rfl ts
  · intro s hr
    cases s with
    | mk r c l st =>
      simp only at hr
      subst hr
      simp [Reload]

/-- Witness for claim C3 at concrete crash instants 100, 105, 110, 115, 120,
125 (initial `lastRestartAt` 0): five attempts with waits 2, 4, 8, 16, 32,
then give-up. -/
theorem crash_backoff_cap_witness :
    runCrashes ⟨true, 0, 0, false⟩ [100, 105, 110, 115, 120, 125] =
      (⟨false, 6, 125, false⟩, [2, 4, 8, 16, 32])
    ∧ (∀ ts : List Time,
        runCrashes ⟨false, 6, 125, false⟩ ts = (⟨false, 6, 125, false⟩, []))
    ∧ (∀ s : MState, s.running = true →
        Reload s = some ⟨true, 0, s.lastRestartAt, false⟩) :=
  crash_backoff_cap 0 100 105 110 115 120 125 (by decide) (by decide) (by decide)
    (by decide) (by decide) (by decide)

end OtunAgent
